import Mathlib

/-
  Verification of `llama_parser/llama-model-example.py` (class `LlamaQueryParser`).

  Strings are modelled as `List Char`.  External collaborators (the Hugging Face
  tokenizer, the model loader, `model.generate`, `json.loads`, `time.sleep`) are
  parameters of the embedded functions: an operation that can raise a Python
  exception is modelled as `Except (List Char) _`, the `List Char` being the
  text of `str(e)`.  `json.loads` is modelled as `loads : List Char → Option α`
  (`none` = `json.JSONDecodeError`); the value type `α` is arbitrary, mirroring
  the fact that `json.loads` may return any JSON value.
-/

namespace LlamaQueryParser

/-- Test `begins pat s`: whether `pat` occurs at the very start of `s`
(the substring test underlying Python's `str.find`). -/
def begins : List Char → List Char → Bool
  | [], _ => true
  | _ :: _, [] => false
  | a :: as, b :: bs => if a = b then begins as bs else false

/-- Scan of positions `p, p+1, ...` over the suffixes of `s`, returning the first
position where `pat` occurs; the search engine of Python's `str.find`. -/
def findAux (pat : List Char) : List Char → Nat → Option Nat
  | [], p => if begins pat [] then some p else none
  | c :: r, p => if begins pat (c :: r) then some p else findAux pat r (p + 1)

/-- First occurrence of `pat` in `t` at an index `≥ start`. -/
def findFrom (t pat : List Char) (start : Nat) : Option Nat :=
  findAux pat (t.drop start) start

/-- Python `t.find(pat, start)`: `-1` when not found; a negative `start` is
interpreted relative to the end of the string, clamped at `0`. -/
def pyFind (t pat : List Char) (start : Int) : Int :=
  let st : Nat := if start < 0 then ((t.length : Int) + start).toNat else start.toNat
  match findFrom t pat st with
  | some p => (p : Int)
  | none => -1

/-- ASCII whitespace stripped by Python's `str.strip()`. -/
def isPySpace (c : Char) : Bool :=
  c = ' ' || c = '\t' || c = '\n' || c = '\r' || c = '\x0b' || c = '\x0c'

/-- Python `s.strip()`. -/
def pyStrip (s : List Char) : List Char :=
  ((s.dropWhile isPySpace).reverse.dropWhile isPySpace).reverse

/-- The opening sentinel `<<<JSON_START>>>`. -/
def startMarker : List Char := "<<<JSON_START>>>".data

/-- The closing sentinel `<<<JSON_END>>>`. -/
def endMarker : List Char := "<<<JSON_END>>>".data

/-- The value returned by `parse` / `_extract_json`: either the JSON value
produced by `json.loads`, or an error dictionary with an `"error"` message and
optionally a `"raw"` field holding the full decoded text. -/
inductive PyDict (α : Type) where
  | parsed (value : α)
  | err (message : List Char) (raw : Option (List Char))
deriving DecidableEq

/-- The message of the missing-marker error dictionary. -/
def noJsonMsg : List Char := "No JSON output found.".data

/-- The message of the malformed-JSON error dictionary. -/
def failParseMsg : List Char := "Failed to parse JSON output from model.".data

/-- The prefix of the generation-failure error message (`f"Model generation failed: {str(e)}"`,
the detail is appended). -/
def genFailMsg : List Char := "Model generation failed: ".data

/-- Message `str(e)` of the `TypeError` raised by `outputs[0]` when `_generate_output`
returns `None` (which happens when `retries <= 0`). -/
def noneSubscriptMsg : List Char := "'NoneType' object is not subscriptable".data

/-- Model of `LlamaQueryParser._extract_json`: find the start marker, find the end marker
from the start marker's index, and if both are found, strip and JSON-parse the
text between them; otherwise return the corresponding error dictionary. -/
def extract_json {α : Type} (generated_text : List Char)
    (loads : List Char → Option α) : PyDict α :=
  let start := pyFind generated_text startMarker 0
  let endPos := pyFind generated_text endMarker start
  if start ≠ -1 ∧ endPos ≠ -1 then
    let json_str :=
      pyStrip ((generated_text.take endPos.toNat).drop (start.toNat + startMarker.length))
    match loads json_str with
    | some v => .parsed v
    | none => .err failParseMsg (some generated_text)
  else
    .err noJsonMsg (some generated_text)

/-- Occurrence of `pat` in `t` at index `i`. -/
def occursAt (pat t : List Char) (i : Nat) : Prop :=
  begins pat (t.drop i) = true

instance (pat t : List Char) (i : Nat) : Decidable (occursAt pat t i) := by
  unfold occursAt; infer_instance

/-! ## `textwrap.dedent`

`_build_prompt` returns `textwrap.dedent(f"...{query}...")`; the dedent runs on
the text *after* the query has been substituted.  CPython's `textwrap.dedent`:
first every line consisting solely of spaces/tabs is emptied, then the margin is
the longest common prefix of the leading whitespace of all lines that contain a
non-whitespace character, and that margin is removed from the front of every
line that starts with it. -/

/-- Split a text into its lines at `'\n'` (like the line structure induced by
Python's `re.MULTILINE` anchors: a text with `n` newlines has `n+1` lines). -/
def splitLines : List Char → List (List Char)
  | [] => [[]]
  | c :: rest =>
    if c = '\n' then [] :: splitLines rest
    else
      match splitLines rest with
      | l :: ls => (c :: l) :: ls
      | [] => [[c]]

/-- Rejoin lines with `'\n'`; inverse of `splitLines`. -/
def unsplitLines : List (List Char) → List Char
  | [] => []
  | [l] => l
  | l :: ls => l ++ '\n' :: unsplitLines ls

/-- The characters `[ \t]` of `textwrap`'s margin regexes. -/
def isWsChar (c : Char) : Bool := c = ' ' || c = '\t'

/-- A line matching `^[ \t]+$` (nonempty, nothing but spaces and tabs). -/
def wsOnly (l : List Char) : Bool := !l.isEmpty && l.all isWsChar

/-- The leading whitespace captured by `(^[ \t]*)(?:[^ \t\n])` — `some indent`
exactly when the line contains a non-whitespace character. -/
def lineIndent (l : List Char) : Option (List Char) :=
  if l.any (fun c => !isWsChar c) then some (l.takeWhile isWsChar) else none

/-- Longest common prefix of two candidate margins (the net effect of the
margin-merging loop in `textwrap.dedent`). -/
def lcp : List Char → List Char → List Char
  | a :: as, b :: bs => if a = b then a :: lcp as bs else []
  | _, _ => []

/-- The margin of a list of captured indents: `None` (here `[]`) for no content
lines, otherwise the fold of the margin-merging loop. -/
def marginOf : List (List Char) → List Char
  | [] => []
  | i :: is => is.foldl lcp i

/-- Model of `textwrap.dedent`. -/
def dedent (text : List Char) : List Char :=
  let ls := (splitLines text).map (fun l => if wsOnly l then [] else l)
  let margin := marginOf (ls.filterMap lineIndent)
  unsplitLines (ls.map (fun l => if begins margin l then l.drop margin.length else l))

/-- The f-string text of `_build_prompt` before the user query (each body line
indented by 12 spaces as in the source; `{{`/`}}` rendered to braces). -/
def promptPrefixRaw : List Char :=
  ("            You are a real estate assistant. Your job is to convert the user's request into a valid JSON object using the exact format below.\n            Output ONLY the JSON object and no other text.\n            Your entire output must consist of the following:\n            <<<JSON_START>>>\n            \x7b \n              \"layer\": \"<string>\",\n              \"filters\": \x7b\n                \"fire_risk\": \"<string>\",\n                \"price\": \x7b \"lt\": <number> \x7d\n              \x7d\n            \x7d\n            <<<JSON_END>>>\n            Do not include any extra text, explanations, or characters.\n            User: ").data

/-- The f-string text after the user query: the final newline and the 8 spaces
preceding the closing `\"\"\"`. -/
def promptSuffixRaw : List Char := "\n        ".data

/-- Model of `LlamaQueryParser._build_prompt`. -/
def build_prompt (query : List Char) : List Char :=
  dedent (promptPrefixRaw ++ query ++ promptSuffixRaw)

/-! ## Parser state, generation loop, `parse` -/

/-- The attributes set by `LlamaQueryParser.__init__`.  `T` is the type of the
sampling temperature (a float, treated as opaque data), `M` the type of the
loaded model handle.  The tokenizer handle is not part of the state: no method
rebinds it, and its behaviour enters through the `encode`/`decode` parameters. -/
structure ParserState (T M : Type) where
  model_id : List Char
  hf_token : Option (List Char)
  device : List Char
  max_new_tokens : Nat
  temperature : T
  retries : Nat
  model : Option M

/-- The outcome of `_generate_output`'s retry loop, instrumented with the number
of `model.generate` calls made and the number of `time.sleep(1)` calls made.
`result = .ok none` models falling off the loop and returning `None`. -/
structure GenTrace (O : Type) where
  result : Except (List Char) (Option O)
  calls : Nat
  sleeps : Nat

/-- Model of `LlamaQueryParser._load_model`: return the cached model, or run the loader
(`AutoModelForCausalLM.from_pretrained`, given as `loader`) and cache it. -/
def load_model {T M : Type} (loader : Except (List Char) M) (st : ParserState T M) :
    Except (List Char) (ParserState T M × M) :=
  match st.model with
  | some m => .ok (st, m)
  | none =>
    match loader with
    | .ok m => .ok ({ st with model := some m }, m)
    | .error e => .error e

/-- The `for attempt in range(retries)` loop of `_generate_output`: attempt `i`
with `rem` iterations remaining; on failure re-raise on the last attempt,
otherwise sleep and continue. -/
def genLoop {O : Type} (gen : Nat → Except (List Char) O) : Nat → Nat → GenTrace O
  | _, 0 => ⟨.ok none, 0, 0⟩
  | i, rem + 1 =>
    match gen i with
    | .ok o => ⟨.ok (some o), 1, 0⟩
    | .error e =>
      if rem = 0 then ⟨.error e, 1, 0⟩
      else
        let tr := genLoop gen (i + 1) rem
        ⟨tr.result, tr.calls + 1, tr.sleeps + 1⟩

/-- Model of `LlamaQueryParser._generate_output`: load the model (possibly caching it),
then run the retry loop.  `gen i m inputs mnt temp` models attempt `i` of
`model.generate(inputs, max_new_tokens=mnt, do_sample=True, temperature=temp, ...)`
(attempt-indexed because sampling differs between attempts).  Returns the loop
outcome, the state after model caching, and the generate/sleep counts. -/
def generate_output {T M I O : Type} (loader : Except (List Char) M)
    (gen : Nat → M → I → Nat → T → Except (List Char) O)
    (inputs : I) (st : ParserState T M) :
    Except (List Char) (Option O) × ParserState T M × Nat × Nat :=
  match load_model loader st with
  | .error e => (.error e, st, 0, 0)
  | .ok (st1, m) =>
    let tr := genLoop (fun i => gen i m inputs st1.max_new_tokens st1.temperature) 0 st1.retries
    (tr.result, st1, tr.calls, tr.sleeps)

/-- Model of `LlamaQueryParser.parse`.  `encode` models `self._tokenizer.encode(prompt,
return_tensors="pt")`, which runs *before* the `try` block, so its exception
propagates (an `Except.error` in the first component).  Inside the `try`:
`_generate_output` and `self._tokenizer.decode(outputs[0], skip_special_tokens=True)`;
any exception there becomes the `"Model generation failed: ..."` dictionary.
Returns (result-or-uncaught-exception, final state, generate calls, sleeps). -/
def parse {T M I O α : Type}
    (encode : List Char → Except (List Char) I)
    (loader : Except (List Char) M)
    (gen : Nat → M → I → Nat → T → Except (List Char) O)
    (decode : O → Except (List Char) (List Char))
    (loads : List Char → Option α)
    (st : ParserState T M) (query : List Char) :
    Except (List Char) (PyDict α) × ParserState T M × Nat × Nat :=
  match encode (build_prompt query) with
  | .error e => (.error e, st, 0, 0)
  | .ok inputs =>
    match generate_output loader gen inputs st with
    | (.error e, st1, c, s) => (.ok (.err (genFailMsg ++ e) none), st1, c, s)
    | (.ok none, st1, c, s) => (.ok (.err (genFailMsg ++ noneSubscriptMsg) none), st1, c, s)
    | (.ok (some o), st1, c, s) =>
      match decode o with
      | .error e => (.ok (.err (genFailMsg ++ e) none), st1, c, s)
      | .ok decoded => (.ok (extract_json decoded loads), st1, c, s)

/-- The default of `os.getenv("MODEL_ID", "Meta-Llama-3-8B-Instruct")`. -/
def defaultModelId : List Char := "Meta-Llama-3-8B-Instruct".data

/-- Model of `LlamaQueryParser.__init__`.  `model_id`/`hf_token` are the constructor
arguments (`none` = Python `None`), `env_model_id`/`env_hf_token` the values of
the environment variables; `x or y` on strings treats `None` and `""` as falsy.
`load_tokenizer` models `AutoTokenizer.from_pretrained`: if it raises, the
constructor raises.  The model cache starts out empty. -/
def init {T M U : Type} (model_id hf_token : Option (List Char))
    (env_model_id env_hf_token : Option (List Char))
    (device : List Char) (max_new_tokens : Nat) (temperature : T) (retries : Nat)
    (load_tokenizer : Except (List Char) U) :
    Except (List Char) (ParserState T M) :=
  let mid := match model_id with
    | some s => if s.isEmpty then env_model_id.getD defaultModelId else s
    | none => env_model_id.getD defaultModelId
  let tok := match hf_token with
    | some s => if s.isEmpty then env_hf_token else some s
    | none => env_hf_token
  match load_tokenizer with
  | .error e => .error e
  | .ok _ =>
    .ok { model_id := mid, hf_token := tok, device := device,
          max_new_tokens := max_new_tokens, temperature := temperature,
          retries := retries, model := none }

/-- The configuration fields of two states agree (everything except the lazily
cached model handle). -/
def sameConfig {T M : Type} (s1 s2 : ParserState T M) : Prop :=
  s1.model_id = s2.model_id ∧ s1.hf_token = s2.hf_token ∧ s1.device = s2.device ∧
  s1.max_new_tokens = s2.max_new_tokens ∧ s1.temperature = s2.temperature ∧
  s1.retries = s2.retries

/-! ## Properties of the substring search -/

theorem begins_append (p r : List Char) : begins p (p ++ r) = true := by
  induction p with
  | nil => rfl
  | cons a as ih => simp [begins, ih]

theorem begins_length {p s : List Char} (h : begins p s = true) : p.length ≤ s.length := by
  induction p generalizing s with
  | nil => simp
  | cons a as ih =>
    cases s with
    | nil => simp [begins] at h
    | cons b bs =>
      simp only [begins] at h
      split at h
      · simpa using ih h
      · cases h

theorem occursAt_length {pat t : List Char} {i : Nat} (hne : pat ≠ [])
    (h : occursAt pat t i) : i + pat.length ≤ t.length := by
  have h1 := begins_length h
  rw [List.length_drop] at h1
  have h2 : 0 < pat.length := List.length_pos.mpr hne
  omega

theorem findAux_sound (pat : List Char) (s : List Char) : ∀ (p q : Nat),
    findAux pat s p = some q →
    p ≤ q ∧ begins pat (s.drop (q - p)) = true ∧
      ∀ k, k < q - p → begins pat (s.drop k) = false := by
  induction s with
  | nil =>
    intro p q h
    unfold findAux at h
    split at h
    · rename_i hb
      cases h
      exact ⟨Nat.le_refl _, by simpa using hb, by intro k hk; omega⟩
    · cases h
  | cons c r ih =>
    intro p q h
    unfold findAux at h
    split at h
    · rename_i hb
      cases h
      exact ⟨Nat.le_refl _, by simpa using hb, by intro k hk; omega⟩
    · rename_i hb
      obtain ⟨h1, h2, h3⟩ := ih (p + 1) q h
      refine ⟨by omega, ?_, ?_⟩
      · have he : q - p = (q - (p + 1)) + 1 := by omega
        rw [he, List.drop_succ_cons]
        exact h2
      · intro k hk
        cases k with
        | zero => simpa using hb
        | succ k =>
          rw [List.drop_succ_cons]
          exact h3 k (by omega)

theorem findAux_none (pat : List Char) (s : List Char) : ∀ (p : Nat),
    findAux pat s p = none → ∀ k, begins pat (s.drop k) = false := by
  induction s with
  | nil =>
    intro p h k
    unfold findAux at h
    split at h
    · cases h
    · rename_i hb
      rw [List.drop_nil]
      simpa using hb
  | cons c r ih =>
    intro p h k
    unfold findAux at h
    split at h
    · cases h
    · rename_i hb
      cases k with
      | zero => simpa using hb
      | succ k =>
        rw [List.drop_succ_cons]
        exact ih (p + 1) h k

theorem findAux_complete (pat : List Char) (s : List Char) : ∀ (k p : Nat),
    begins pat (s.drop k) = true → (∀ j, j < k → begins pat (s.drop j) = false) →
    findAux pat s p = some (p + k) := by
  induction s with
  | nil =>
    intro k p h hmin
    cases k with
    | zero =>
      unfold findAux
      rw [List.drop_nil] at h
      simp [h]
    | succ k =>
      exfalso
      have h0 := hmin 0 (Nat.succ_pos _)
      simp only [List.drop_nil, List.drop_zero] at h h0
      rw [h] at h0
      cases h0
  | cons c r ih =>
    intro k p h hmin
    cases k with
    | zero =>
      unfold findAux
      rw [List.drop_zero] at h
      simp [h]
    | succ k =>
      have h0 : begins pat (c :: r) = false := by simpa using hmin 0 (Nat.succ_pos _)
      unfold findAux
      rw [h0]
      simp only [Bool.false_eq_true, if_false]
      have := ih k (p + 1) (by simpa using h)
        (fun j hj => by simpa using hmin (j + 1) (by omega))
      rw [this]
      congr 1
      omega

theorem findFrom_some {t pat : List Char} {st q : Nat} (h : findFrom t pat st = some q) :
    st ≤ q ∧ occursAt pat t q ∧ ∀ j, st ≤ j → j < q → ¬ occursAt pat t j := by
  obtain ⟨h1, h2, h3⟩ := findAux_sound pat (t.drop st) st q h
  refine ⟨h1, ?_, ?_⟩
  · unfold occursAt
    rw [List.drop_drop] at h2
    have he : st + (q - st) = q := by omega
    rw [he] at h2
    exact h2
  · intro j hj hjq hocc
    have := h3 (j - st) (by omega)
    unfold occursAt at hocc
    rw [List.drop_drop] at this
    have he : st + (j - st) = j := by omega
    rw [he] at this
    rw [hocc] at this
    cases this

theorem findFrom_none {t pat : List Char} {st : Nat} (h : findFrom t pat st = none) :
    ∀ j, st ≤ j → ¬ occursAt pat t j := by
  intro j hj hocc
  have := findAux_none pat (t.drop st) st h (j - st)
  rw [List.drop_drop] at this
  have he : st + (j - st) = j := by omega
  rw [he] at this
  unfold occursAt at hocc
  rw [hocc] at this
  cases this

theorem findFrom_complete {t pat : List Char} {st q : Nat} (hq : occursAt pat t q)
    (hst : st ≤ q) (hmin : ∀ j, st ≤ j → j < q → ¬ occursAt pat t j) :
    findFrom t pat st = some q := by
  unfold findFrom
  have h1 : begins pat ((t.drop st).drop (q - st)) = true := by
    rw [List.drop_drop]
    have he : st + (q - st) = q := by omega
    rw [he]
    exact hq
  have h2 : ∀ j, j < q - st → begins pat ((t.drop st).drop j) = false := by
    intro j hj
    rw [List.drop_drop]
    have := hmin (st + j) (by omega) (by omega)
    unfold occursAt at this
    exact Bool.not_eq_true _ ▸ Bool.of_not_eq_true this
  have := findAux_complete pat (t.drop st) (q - st) st h1 h2
  rw [this]
  congr 1
  omega

/-! ## Behaviour of `extract_json` -/

theorem occursAt_start_marker (a b c : List Char) :
    occursAt startMarker (a ++ startMarker ++ b ++ endMarker ++ c) a.length := by
  unfold occursAt
  have h : a ++ startMarker ++ b ++ endMarker ++ c =
      a ++ (startMarker ++ (b ++ (endMarker ++ c))) := by simp [List.append_assoc]
  rw [h, List.drop_left]
  exact begins_append _ _

theorem occursAt_end_marker (a b c : List Char) :
    occursAt endMarker (a ++ startMarker ++ b ++ endMarker ++ c)
      (a.length + startMarker.length + b.length) := by
  unfold occursAt
  have h : a ++ startMarker ++ b ++ endMarker ++ c =
      (a ++ startMarker ++ b) ++ (endMarker ++ c) := by simp [List.append_assoc]
  have hl : a.length + startMarker.length + b.length = (a ++ startMarker ++ b).length := by
    simp [List.length_append]; omega
  rw [h, hl, List.drop_left]
  exact begins_append _ _

/-- With `a.length` the first occurrence of the start marker and
`a.length + startMarker.length + b.length` the first occurrence of the end
marker at or after it, `_extract_json` parses exactly the stripped text between
the markers, ignoring `a` and `c`. -/
theorem extract_json_markers {α : Type} (a b c : List Char) (loads : List Char → Option α)
    (hfirst : ∀ i, occursAt startMarker (a ++ startMarker ++ b ++ endMarker ++ c) i →
      a.length ≤ i)
    (hend : ∀ i, a.length ≤ i →
      occursAt endMarker (a ++ startMarker ++ b ++ endMarker ++ c) i →
      a.length + startMarker.length + b.length ≤ i) :
    extract_json (a ++ startMarker ++ b ++ endMarker ++ c) loads =
      match loads (pyStrip b) with
      | some v => PyDict.parsed v
      | none => PyDict.err failParseMsg (some (a ++ startMarker ++ b ++ endMarker ++ c)) := by
  have hs : findFrom (a ++ startMarker ++ b ++ endMarker ++ c) startMarker 0 =
      some a.length :=
    findFrom_complete (occursAt_start_marker a b c) (Nat.zero_le _)
      (fun j _ hj hocc => by have := hfirst j hocc; omega)
  have he : findFrom (a ++ startMarker ++ b ++ endMarker ++ c) endMarker a.length =
      some (a.length + startMarker.length + b.length) :=
    findFrom_complete (occursAt_end_marker a b c) (by omega)
      (fun j hj1 hj2 hocc => by have := hend j hj1 hocc; omega)
  unfold extract_json pyFind
  simp only [show ¬((0 : Int) < 0) by omega, if_false, Int.toNat_zero, hs, he]
  have h1 : ((a.length : Nat) : Int) < 0 ↔ False := by simp
  simp only [h1, if_false, Int.toNat_natCast, he]
  have hne1 : ((a.length : Nat) : Int) ≠ -1 := by omega
  have hne2 : ((a.length + startMarker.length + b.length : Nat) : Int) ≠ -1 := by omega
  simp only [hne1, hne2, ne_eq, not_false_eq_true, and_self, if_true, Int.toNat_natCast]
  have hslice : ((a ++ startMarker ++ b ++ endMarker ++ c).take
      (a.length + startMarker.length + b.length)).drop (a.length + startMarker.length) = b := by
    have h : a ++ startMarker ++ b ++ endMarker ++ c =
        (a ++ startMarker ++ b) ++ (endMarker ++ c) := by simp [List.append_assoc]
    have hl : a.length + startMarker.length + b.length = (a ++ startMarker ++ b).length := by
      simp [List.length_append]; omega
    rw [h, hl, List.take_left]
    have h2 : a ++ startMarker ++ b = (a ++ startMarker) ++ b := by simp [List.append_assoc]
    have hl2 : a.length + startMarker.length = (a ++ startMarker).length := by
      simp [List.length_append]
    rw [h2, hl2, List.drop_left]
  rw [hslice]

/-- If no occurrence of the end marker lies at or after an occurrence of the
start marker, `_extract_json` reports the missing-marker error. -/
theorem extract_json_no_markers {α : Type} (t : List Char) (loads : List Char → Option α)
    (h : ∀ i j, i ≤ j → occursAt startMarker t i → occursAt endMarker t j → False) :
    extract_json t loads = PyDict.err noJsonMsg (some t) := by
  unfold extract_json pyFind
  simp only [show ¬((0 : Int) < 0) by omega, if_false, Int.toNat_zero]
  cases hfs : findFrom t startMarker 0 with
  | none => simp
  | some s =>
    obtain ⟨-, hocc, -⟩ := findFrom_some hfs
    have hfe : findFrom t endMarker s = none := by
      cases hfe : findFrom t endMarker s with
      | none => rfl
      | some e =>
        obtain ⟨hse, hocce, -⟩ := findFrom_some hfe
        exact (h s e hse hocc hocce).elim
    have h1 : ((s : Nat) : Int) < 0 ↔ False := by simp
    simp only [h1, if_false, Int.toNat_natCast, hfe]
    simp

/-- Claim C10: `_extract_json` is total over all input strings: it always
returns one of the three result shapes (parsed value, JSON-decode error with
the raw text attached, missing-marker error with the raw text attached); the
JSON-decode failure branch is converted to an error record, never an
exception. -/
theorem extract_json_shapes {α : Type} (t : List Char) (loads : List Char → Option α) :
    (∃ v, extract_json t loads = PyDict.parsed v) ∨
    extract_json t loads = PyDict.err failParseMsg (some t) ∨
    extract_json t loads = PyDict.err noJsonMsg (some t) := by
  simp only [extract_json]
  split
  · split
    · rename_i v _; exact Or.inl ⟨v, rfl⟩
    · exact Or.inr (Or.inl rfl)
  · exact Or.inr (Or.inr rfl)

/-! ## Behaviour of the retry loop and of `parse` -/

/-- If attempt `i` succeeds, the loop returns right away: one `generate` call,
no sleep. -/
theorem genLoop_first_ok {O : Type} (g : Nat → Except (List Char) O) (o : O) (i r : Nat)
    (h : g i = .ok o) : genLoop g i (r + 1) = ⟨.ok (some o), 1, 0⟩ := by
  unfold genLoop
  rw [h]

/-- If every one of the `rem` remaining attempts fails, the loop makes exactly
`rem` `generate` calls, sleeps `rem - 1` times, and re-raises the last error. -/
theorem genLoop_all_fail {O : Type} (g : Nat → Except (List Char) O) (errOf : Nat → List Char) :
    ∀ (rem i : Nat), 0 < rem → (∀ k, k < rem → g (i + k) = .error (errOf (i + k))) →
    genLoop g i rem = ⟨.error (errOf (i + rem - 1)), rem, rem - 1⟩ := by
  intro rem
  induction rem with
  | zero => intro i h; omega
  | succ r ih =>
    intro i _ hg
    have h0 : g i = .error (errOf i) := by simpa using hg 0 (Nat.succ_pos _)
    unfold genLoop
    rw [h0]
    cases r with
    | zero => simp
    | succ r2 =>
      have hg2 : ∀ k, k < r2 + 1 → g (i + 1 + k) = .error (errOf (i + 1 + k)) := by
        intro k hk
        have he : i + 1 + k = i + (k + 1) := by omega
        rw [he]
        exact hg (k + 1) (by omega)
      have hrec := ih (i + 1) (Nat.succ_pos _) hg2
      simp only [Nat.succ_ne_zero, if_false, hrec]
      have he2 : i + 1 + (r2 + 1) - 1 = i + (r2 + 1 + 1) - 1 := by omega
      simp [he2, GenTrace.mk.injEq]

/-- When the model is cached, encoding succeeds, the first generation attempt
succeeds and decoding succeeds with text `t`, `parse` returns
`_extract_json t` with the state unchanged, after one generate call and no sleep. -/
theorem parse_pipeline {T M I O α : Type}
    (encode : List Char → Except (List Char) I)
    (loader : Except (List Char) M)
    (gen : Nat → M → I → Nat → T → Except (List Char) O)
    (decode : O → Except (List Char) (List Char))
    (loads : List Char → Option α)
    (st : ParserState T M) (q : List Char) (m : M) (inp : I) (o : O) (t : List Char)
    (hm : st.model = some m)
    (hr : 0 < st.retries)
    (he : encode (build_prompt q) = .ok inp)
    (hg : gen 0 m inp st.max_new_tokens st.temperature = .ok o)
    (hd : decode o = .ok t) :
    parse encode loader gen decode loads st q = (.ok (extract_json t loads), st, 1, 0) := by
  obtain ⟨r, hrr⟩ : ∃ r, st.retries = r + 1 := ⟨st.retries - 1, by omega⟩
  have hloop : genLoop (fun i => gen i m inp st.max_new_tokens st.temperature) 0 st.retries
      = ⟨.ok (some o), 1, 0⟩ := by
    rw [hrr]
    exact genLoop_first_ok _ o 0 r hg
  simp only [parse, generate_output, load_model, he, hm, hloop, hd]

/-- Helper: `_generate_output` changes at most the cached model handle. -/
theorem generate_output_config {T M I O : Type} (loader : Except (List Char) M)
    (gen : Nat → M → I → Nat → T → Except (List Char) O) (inp : I) (st : ParserState T M) :
    sameConfig st (generate_output loader gen inp st).2.1 := by
  unfold generate_output load_model
  cases hm : st.model with
  | some m => simp [sameConfig]
  | none =>
    cases loader with
    | error e => simp [sameConfig]
    | ok m => simp [sameConfig]

/-- Claim C8: the configuration fields (model identifier, access token, device
selector, generation length limit, sampling temperature, retry count) set at
construction are never modified by `parse`: the state coming out of any call to
`parse` agrees with the incoming state on every field except possibly the
lazily cached model handle. -/
theorem parse_preserves_configuration {T M I O α : Type}
    (encode : List Char → Except (List Char) I)
    (loader : Except (List Char) M)
    (gen : Nat → M → I → Nat → T → Except (List Char) O)
    (decode : O → Except (List Char) (List Char))
    (loads : List Char → Option α)
    (st : ParserState T M) (q : List Char) :
    sameConfig st (parse encode loader gen decode loads st q).2.1 := by
  unfold parse
  cases he : encode (build_prompt q) with
  | error e => simp [sameConfig]
  | ok inp =>
    have hgc := generate_output_config loader gen inp st
    rcases hre : generate_output loader gen inp st with ⟨res, st1, c, s⟩
    rw [hre] at hgc
    dsimp only
    rw [hre]
    cases res with
    | error e => simpa using hgc
    | ok oo =>
      cases oo with
      | none => simpa using hgc
      | some o =>
        cases hd : decode o with
        | error e => simp only [hd]; simpa using hgc
        | ok decoded => simp only [hd]; simpa using hgc

/-! ## Claim theorems -/

/-- Claim C1: for every generated text in which the start marker occurs and the
end marker occurs after it, with the substring between them (after stripping
whitespace) being valid JSON, `parse` (via `_extract_json`) returns exactly the
object obtained by JSON-parsing that substring; no schema validation is
performed (`loads` and the value `j` are arbitrary). -/
theorem parse_returns_exact_json {T M I O α : Type}
    (encode : List Char → Except (List Char) I)
    (loader : Except (List Char) M)
    (gen : Nat → M → I → Nat → T → Except (List Char) O)
    (decode : O → Except (List Char) (List Char))
    (loads : List Char → Option α)
    (st : ParserState T M) (q : List Char) (m : M) (inp : I) (o : O)
    (a b c : List Char) (j : α)
    (hm : st.model = some m)
    (hr : 0 < st.retries)
    (he : encode (build_prompt q) = .ok inp)
    (hg : gen 0 m inp st.max_new_tokens st.temperature = .ok o)
    (hd : decode o = .ok (a ++ startMarker ++ b ++ endMarker ++ c))
    (hfirst : ∀ i, occursAt startMarker (a ++ startMarker ++ b ++ endMarker ++ c) i →
      a.length ≤ i)
    (hend : ∀ i, a.length ≤ i →
      occursAt endMarker (a ++ startMarker ++ b ++ endMarker ++ c) i →
      a.length + startMarker.length + b.length ≤ i)
    (hjson : loads (pyStrip b) = some j) :
    (parse encode loader gen decode loads st q).1 = Except.ok (PyDict.parsed j) := by
  rw [parse_pipeline encode loader gen decode loads st q m inp o _ hm hr he hg hd]
  dsimp only
  rw [extract_json_markers a b c loads hfirst hend, hjson]

/-- Witness for C1: a run whose decoded text is
`xy<<<JSON_START>>> 42 <<<JSON_END>>>z` with a JSON reader accepting `42`. -/
theorem parse_returns_exact_json_witness :
    (parse (fun _ => Except.ok 1) (Except.ok ()) (fun _ _ _ _ _ => Except.ok 5)
      (fun _ => Except.ok ("xy".data ++ startMarker ++ " 42 ".data ++ endMarker ++ "z".data))
      (fun s => if s = "42".data then some (42 : Nat) else none)
      ⟨"Meta-Llama-3-8B-Instruct".data, none, "auto".data, 150, (7 : Nat), 3, some ()⟩
      "find cheap homes".data).1 = Except.ok (PyDict.parsed 42) := by
  refine parse_returns_exact_json _ _ _ _ _ _ _ () 1 5 ("xy".data) (" 42 ".data) ("z".data) 42
    rfl (by decide) rfl rfl rfl ?_ ?_ (by decide)
  · intro i hocc
    by_contra hlt
    push_neg at hlt
    have h2 : ("xy".data).length = 2 := rfl
    rw [h2] at hlt
    interval_cases i <;> revert hocc <;> decide
  · intro i hge hocc
    by_contra hlt
    push_neg at hlt
    have hN : ("xy".data).length + startMarker.length + (" 42 ".data).length = 22 := rfl
    have h2 : ("xy".data).length = 2 := rfl
    rw [hN] at hlt
    rw [h2] at hge
    interval_cases i <;> revert hocc <;> decide

/-- Claim C4: if no end-marker occurrence lies at or after a start-marker
occurrence in the decoded text (in particular if the text has no markers),
`parse` returns exactly the error dictionary
`{error: "No JSON output found.", raw: <decoded text>}`. -/
theorem parse_no_markers_error {T M I O α : Type}
    (encode : List Char → Except (List Char) I)
    (loader : Except (List Char) M)
    (gen : Nat → M → I → Nat → T → Except (List Char) O)
    (decode : O → Except (List Char) (List Char))
    (loads : List Char → Option α)
    (st : ParserState T M) (q : List Char) (m : M) (inp : I) (o : O) (t : List Char)
    (hm : st.model = some m)
    (hr : 0 < st.retries)
    (he : encode (build_prompt q) = .ok inp)
    (hg : gen 0 m inp st.max_new_tokens st.temperature = .ok o)
    (hd : decode o = .ok t)
    (hno : ∀ i j, i ≤ j → occursAt startMarker t i → occursAt endMarker t j → False) :
    (parse encode loader gen decode loads st q).1 =
      Except.ok (PyDict.err noJsonMsg (some t)) := by
  rw [parse_pipeline encode loader gen decode loads st q m inp o t hm hr he hg hd]
  dsimp only
  rw [extract_json_no_markers t loads hno]

/-- Witness for C4: decoded text `hello`, which contains no markers. -/
theorem parse_no_markers_error_witness :
    (parse (fun _ => Except.ok 1) (Except.ok ()) (fun _ _ _ _ _ => Except.ok 5)
      (fun _ => Except.ok "hello".data) (fun s => if s = "42".data then some (0 : Nat) else none)
      ⟨"Meta-Llama-3-8B-Instruct".data, none, "auto".data, 150, (7 : Nat), 3, some ()⟩
      "hi".data).1 = Except.ok (PyDict.err noJsonMsg (some "hello".data)) := by
  refine parse_no_markers_error _ _ _ _ _ _ _ () 1 5 ("hello".data)
    rfl (by decide) rfl rfl rfl ?_
  intro i j hij hs hE
  have hlen := occursAt_length (by decide) hs
  have h16 : startMarker.length = 16 := rfl
  have h5 : ("hello".data).length = 5 := rfl
  omega

/-- Claim C5: if the markers are found but the stripped content between them is
not valid JSON (`loads` yields `none`), `parse` returns exactly the error
dictionary `{error: "Failed to parse JSON output from model.", raw: <decoded text>}`. -/
theorem parse_bad_json_error {T M I O α : Type}
    (encode : List Char → Except (List Char) I)
    (loader : Except (List Char) M)
    (gen : Nat → M → I → Nat → T → Except (List Char) O)
    (decode : O → Except (List Char) (List Char))
    (loads : List Char → Option α)
    (st : ParserState T M) (q : List Char) (m : M) (inp : I) (o : O)
    (a b c : List Char)
    (hm : st.model = some m)
    (hr : 0 < st.retries)
    (he : encode (build_prompt q) = .ok inp)
    (hg : gen 0 m inp st.max_new_tokens st.temperature = .ok o)
    (hd : decode o = .ok (a ++ startMarker ++ b ++ endMarker ++ c))
    (hfirst : ∀ i, occursAt startMarker (a ++ startMarker ++ b ++ endMarker ++ c) i →
      a.length ≤ i)
    (hend : ∀ i, a.length ≤ i →
      occursAt endMarker (a ++ startMarker ++ b ++ endMarker ++ c) i →
      a.length + startMarker.length + b.length ≤ i)
    (hjson : loads (pyStrip b) = none) :
    (parse encode loader gen decode loads st q).1 =
      Except.ok (PyDict.err failParseMsg (some (a ++ startMarker ++ b ++ endMarker ++ c))) := by
  rw [parse_pipeline encode loader gen decode loads st q m inp o _ hm hr he hg hd]
  dsimp only
  rw [extract_json_markers a b c loads hfirst hend, hjson]

/-- Witness for C5: decoded text `xy<<<JSON_START>>> oops <<<JSON_END>>>z`
whose payload `oops` is rejected by the JSON reader. -/
theorem parse_bad_json_error_witness :
    (parse (fun _ => Except.ok 1) (Except.ok ()) (fun _ _ _ _ _ => Except.ok 5)
      (fun _ => Except.ok ("xy".data ++ startMarker ++ " oops ".data ++ endMarker ++ "z".data))
      (fun s => if s = "42".data then some (0 : Nat) else none)
      ⟨"Meta-Llama-3-8B-Instruct".data, none, "auto".data, 150, (7 : Nat), 3, some ()⟩
      "hi".data).1 =
      Except.ok (PyDict.err failParseMsg
        (some ("xy".data ++ startMarker ++ " oops ".data ++ endMarker ++ "z".data))) := by
  refine parse_bad_json_error _ _ _ _ _ _ _ () 1 5 ("xy".data) (" oops ".data) ("z".data)
    rfl (by decide) rfl rfl rfl ?_ ?_ (by decide)
  · intro i hocc
    by_contra hlt
    push_neg at hlt
    have h2 : ("xy".data).length = 2 := rfl
    rw [h2] at hlt
    interval_cases i <;> revert hocc <;> decide
  · intro i hge hocc
    by_contra hlt
    push_neg at hlt
    have hN : ("xy".data).length + startMarker.length + (" oops ".data).length = 24 := rfl
    have h2 : ("xy".data).length = 2 := rfl
    rw [hN] at hlt
    rw [h2] at hge
    interval_cases i <;> revert hocc <;> decide

/-- Claim C6: `_extract_json` locates the first occurrence of the start marker
and the first occurrence of the end marker after it, slices the substring
between them, and its result depends only on that substring (plus, in the error
case, the full text in `raw`): the surrounding text `a` and `c` is ignored. -/
theorem extract_json_first_markers {α : Type} (a b c : List Char)
    (loads : List Char → Option α)
    (hfirst : ∀ i, occursAt startMarker (a ++ startMarker ++ b ++ endMarker ++ c) i →
      a.length ≤ i)
    (hend : ∀ i, a.length ≤ i →
      occursAt endMarker (a ++ startMarker ++ b ++ endMarker ++ c) i →
      a.length + startMarker.length + b.length ≤ i) :
    extract_json (a ++ startMarker ++ b ++ endMarker ++ c) loads =
      match loads (pyStrip b) with
      | some v => PyDict.parsed v
      | none => PyDict.err failParseMsg (some (a ++ startMarker ++ b ++ endMarker ++ c)) :=
  extract_json_markers a b c loads hfirst hend

/-- Witness for C6: text with decoy content around the markers; the payload
`7` is parsed, with everything outside the markers ignored. -/
theorem extract_json_first_markers_witness :
    extract_json ("noise".data ++ startMarker ++ " 7 ".data ++ endMarker ++ "<<<".data)
      (fun s => if s = "7".data then some (99 : Nat) else none) = PyDict.parsed 99 := by
  rw [extract_json_first_markers ("noise".data) (" 7 ".data) ("<<<".data)
    (fun s => if s = "7".data then some (99 : Nat) else none) ?_ ?_]
  · decide
  · intro i hocc
    by_contra hlt
    push_neg at hlt
    have h5 : ("noise".data).length = 5 := rfl
    rw [h5] at hlt
    interval_cases i <;> revert hocc <;> decide
  · intro i hge hocc
    by_contra hlt
    push_neg at hlt
    have hN : ("noise".data).length + startMarker.length + (" 7 ".data).length = 24 := rfl
    have h5 : ("noise".data).length = 5 := rfl
    rw [hN] at hlt
    rw [h5] at hge
    interval_cases i <;> revert hocc <;> decide

/-- Claim C2: when the model is available and every generation attempt fails,
`parse` makes exactly `retries` generation attempts, sleeps between consecutive
attempts (`retries - 1` sleeps), and returns the error dictionary
`{error: "Model generation failed: <last failure detail>"}` (no exception
escapes: the result is `Except.ok`). -/
theorem parse_retry_exhaustion {T M I O α : Type}
    (encode : List Char → Except (List Char) I)
    (loader : Except (List Char) M)
    (gen : Nat → M → I → Nat → T → Except (List Char) O)
    (decode : O → Except (List Char) (List Char))
    (loads : List Char → Option α)
    (st : ParserState T M) (q : List Char) (m : M) (inp : I) (errOf : Nat → List Char)
    (hm : st.model = some m)
    (hr : 0 < st.retries)
    (he : encode (build_prompt q) = .ok inp)
    (hg : ∀ k, k < st.retries →
      gen k m inp st.max_new_tokens st.temperature = .error (errOf k)) :
    parse encode loader gen decode loads st q =
      (Except.ok (PyDict.err (genFailMsg ++ errOf (st.retries - 1)) none),
        st, st.retries, st.retries - 1) := by
  have hloop := genLoop_all_fail (fun i => gen i m inp st.max_new_tokens st.temperature)
    errOf st.retries 0 hr (fun k hk => by simpa using hg k (by omega))
  have h0 : 0 + st.retries - 1 = st.retries - 1 := by omega
  rw [h0] at hloop
  simp only [parse, generate_output, load_model, he, hm, hloop]

/-- Witness for C2: three configured retries, every attempt failing with
detail `boom`; `parse` reports the failure after 3 calls and 2 sleeps. -/
theorem parse_retry_exhaustion_witness :
    @parse Nat Unit Nat Nat Nat (fun _ => Except.ok 1) (Except.ok ())
      (fun _ _ _ _ _ => Except.error "boom".data)
      (fun _ => Except.ok "out".data) (fun s => if s = "42".data then some (0 : Nat) else none)
      ⟨"Meta-Llama-3-8B-Instruct".data, none, "auto".data, 150, (7 : Nat), 3, some ()⟩
      "hi".data =
      (Except.ok (PyDict.err (genFailMsg ++ "boom".data) none),
        ⟨"Meta-Llama-3-8B-Instruct".data, none, "auto".data, 150, (7 : Nat), 3, some ()⟩,
        3, 2) :=
  parse_retry_exhaustion _ _ _ _ _ _ _ () 1 (fun _ => "boom".data)
    rfl (by decide) rfl (fun k _ => rfl)

/-- Counterexample to claim C3: `self._tokenizer.encode` is called on line 175,
*before* the `try` block of `parse`, so an encoding failure propagates as an
exception to the caller instead of being converted to an error dictionary. -/
theorem parse_encode_exception_propagates :
    (@parse Nat Unit Nat Nat Nat (fun _ => Except.error "Tokenizer encode failed".data)
      (Except.ok ()) (fun _ _ _ _ _ => Except.ok 0) (fun _ => Except.ok [])
      (fun s => if s = "42".data then some (0 : Nat) else none)
      ⟨"Meta-Llama-3-8B-Instruct".data, none, "auto".data, 150, (7 : Nat), 3, some ()⟩
      "hi".data).1 = Except.error "Tokenizer encode failed".data := rfl

/-- Claim C3 (amended): provided prompt encoding succeeds, every failure mode
inside `parse` — model loading, generation (including exhausted retries),
decoding, missing markers, malformed JSON — is converted into a result-shaped
dictionary: `parse` returns `Except.ok` for some dictionary-or-parsed value and
never propagates an exception.  (Exceptions from `tokenizer.encode`, which runs
before the `try` block, and from tokenizer construction in `__init__`
propagate.) -/
theorem parse_errors_as_data {T M I O α : Type}
    (encode : List Char → Except (List Char) I)
    (loader : Except (List Char) M)
    (gen : Nat → M → I → Nat → T → Except (List Char) O)
    (decode : O → Except (List Char) (List Char))
    (loads : List Char → Option α)
    (st : ParserState T M) (q : List Char) (inp : I)
    (he : encode (build_prompt q) = .ok inp) :
    ∃ d, (parse encode loader gen decode loads st q).1 = Except.ok d := by
  simp only [parse, he]
  rcases hre : generate_output loader gen inp st with ⟨res, st1, c, s⟩
  cases res with
  | error e => exact ⟨_, rfl⟩
  | ok oo =>
    cases oo with
    | none => exact ⟨_, rfl⟩
    | some o =>
      cases hd : decode o with
      | error e => simp only [hd]; exact ⟨_, rfl⟩
      | ok decoded => simp only [hd]; exact ⟨_, rfl⟩

/-- Witness for C3 (amended): even when the model loader itself raises, `parse`
returns an error dictionary rather than propagating. -/
theorem parse_errors_as_data_witness :
    ∃ d, (parse (fun _ => Except.ok 1) (Except.error "load failed".data)
      (fun _ _ _ _ _ => Except.ok 5) (fun _ => Except.ok "out".data)
      (fun s => if s = "42".data then some (0 : Nat) else none)
      (⟨"Meta-Llama-3-8B-Instruct".data, none, "auto".data, 150, (7 : Nat), 3, none⟩ :
        ParserState Nat Unit)
      "hi".data).1 = Except.ok d :=
  parse_errors_as_data _ _ _ _ _ _ _ 1 rfl

/-- Claim C9: `__init__` leaves the model cache empty (model loading is
deferred); the first `_load_model` call runs the loader and caches its result;
every subsequent `_load_model` call returns the same cached handle without
consulting any loader. -/
theorem model_loading_lazy_cached {T M U : Type}
    (model_id hf_token env_model_id env_hf_token : Option (List Char))
    (device : List Char) (mnt : Nat) (temp : T) (retries : Nat)
    (ltok : Except (List Char) U) (st : ParserState T M) (m : M)
    (hinit : init model_id hf_token env_model_id env_hf_token device mnt temp retries ltok =
      Except.ok st) :
    st.model = none ∧
    load_model (Except.ok m) st = Except.ok ({ st with model := some m }, m) ∧
    ∀ loader2, load_model loader2 { st with model := some m } =
      Except.ok ({ st with model := some m }, m) := by
  have hm : st.model = none := by
    simp only [init] at hinit
    cases ltok with
    | error e => simp at hinit
    | ok u =>
      rw [Except.ok.injEq] at hinit
      rw [← hinit]
  refine ⟨hm, ?_, ?_⟩
  · simp only [load_model, hm]
  · intro loader2
    simp only [load_model]

/-- Witness for C9: a freshly constructed state has no model; loading caches
the handle `5`; a second load returns the cached `5` even though its loader
would fail. -/
theorem model_loading_lazy_cached_witness :
    (⟨defaultModelId, none, "auto".data, 150, (7 : Nat), 3, none⟩ :
        ParserState Nat Nat).model = none ∧
    load_model (Except.ok 5)
      (⟨defaultModelId, none, "auto".data, 150, (7 : Nat), 3, none⟩ : ParserState Nat Nat) =
      Except.ok (⟨defaultModelId, none, "auto".data, 150, (7 : Nat), 3, some 5⟩, 5) ∧
    load_model (Except.error "down".data)
      (⟨defaultModelId, none, "auto".data, 150, (7 : Nat), 3, some 5⟩ : ParserState Nat Nat) =
      Except.ok (⟨defaultModelId, none, "auto".data, 150, (7 : Nat), 3, some 5⟩, 5) := by
  have h := @model_loading_lazy_cached Nat Nat Unit none none none none ("auto".data) 150 7 3
    (Except.ok ())
    (⟨defaultModelId, none, "auto".data, 150, (7 : Nat), 3, none⟩ : ParserState Nat Nat)
    5 rfl
  exact ⟨h.1, h.2.1, h.2.2 (Except.error "down".data)⟩

/-! ## Behaviour of `_build_prompt` (dedent) -/

theorem splitLines_ne_nil (s : List Char) : splitLines s ≠ [] := by
  cases s with
  | nil => simp [splitLines]
  | cons c rest =>
    unfold splitLines
    split
    · simp
    · split <;> simp

theorem splitLines_cons_no_nl {c : Char} (h : ¬ c = '\n') (s : List Char) :
    splitLines (c :: s) = (c :: (splitLines s).headI) :: (splitLines s).tail := by
  obtain ⟨l, ls, hE⟩ := List.exists_cons_of_ne_nil (splitLines_ne_nil s)
  have h1 : splitLines (c :: s) = (c :: l) :: ls := by
    conv_lhs => unfold splitLines
    rw [if_neg h, hE]
  rw [h1, hE]
  simp

theorem splitLines_append_no_nl (q rest : List Char) (h : '\n' ∉ q) :
    splitLines (q ++ rest) = (q ++ (splitLines rest).headI) :: (splitLines rest).tail := by
  induction q with
  | nil =>
    obtain ⟨l, ls, hE⟩ := List.exists_cons_of_ne_nil (splitLines_ne_nil rest)
    rw [List.nil_append, hE]
    simp
  | cons c q2 ih =>
    have hc : ¬ c = '\n' := fun hc => h (hc ▸ List.mem_cons_self c q2)
    have hq2 : '\n' ∉ q2 := fun hm => h (List.mem_cons_of_mem c hm)
    rw [List.cons_append, splitLines_cons_no_nl hc, ih hq2]
    simp

theorem splitLines_line_cons (l : List Char) (h : '\n' ∉ l) (s : List Char) :
    splitLines (l ++ '\n' :: s) = l :: splitLines s := by
  have hnl : splitLines ('\n' :: s) = [] :: splitLines s := by
    conv_lhs => unfold splitLines
    rw [if_pos rfl]
  rw [splitLines_append_no_nl l ('\n' :: s) h, hnl]
  simp

theorem unsplitLines_append (xs ys : List (List Char)) (hx : xs ≠ []) (hy : ys ≠ []) :
    unsplitLines (xs ++ ys) = unsplitLines xs ++ '\n' :: unsplitLines ys := by
  induction xs with
  | nil => exact absurd rfl hx
  | cons x xs2 ih =>
    cases xs2 with
    | nil =>
      obtain ⟨y, ys2, hE⟩ := List.exists_cons_of_ne_nil hy
      subst hE
      cases ys2 <;> simp [unsplitLines]
    | cons x2 xs3 =>
      have h2 := ih (by simp)
      show x ++ '\n' :: unsplitLines ((x2 :: xs3) ++ ys) =
          unsplitLines (x :: x2 :: xs3) ++ '\n' :: unsplitLines ys
      rw [h2]
      show x ++ '\n' :: (unsplitLines (x2 :: xs3) ++ '\n' :: unsplitLines ys) =
          (x ++ '\n' :: unsplitLines (x2 :: xs3)) ++ '\n' :: unsplitLines ys
      simp [List.append_assoc]

/-- The lines joined with newlines, followed by a last segment carrying no
newline of its own. -/
def joinLines : List (List Char) → List Char → List Char
  | [], last => last
  | l :: ls, last => l ++ '\n' :: joinLines ls last

theorem joinLines_append (ls : List (List Char)) (A B : List Char) :
    joinLines ls A ++ B = joinLines ls (A ++ B) := by
  induction ls with
  | nil => rfl
  | cons l ls2 ih => simp [joinLines, ih]

theorem splitLines_joinLines (ls : List (List Char)) (last : List Char)
    (h : ∀ l ∈ ls, '\n' ∉ l) :
    splitLines (joinLines ls last) = ls ++ splitLines last := by
  induction ls with
  | nil => rfl
  | cons l ls2 ih =>
    have hl : '\n' ∉ l := h l (List.mem_cons_self l ls2)
    have hls : ∀ x ∈ ls2, '\n' ∉ x := fun x hx => h x (List.mem_cons_of_mem l hx)
    rw [joinLines, splitLines_line_cons l hl, ih hls]
    rfl

theorem takeWhile_append_all {p : Char → Bool} :
    ∀ (a b : List Char), a.all p = true → (a ++ b).takeWhile p = a ++ b.takeWhile p := by
  intro a
  induction a with
  | nil => intro b _; rfl
  | cons c a2 ih =>
    intro b hall
    simp only [List.all_cons, Bool.and_eq_true] at hall
    rw [List.cons_append, List.takeWhile_cons, hall.1]
    simp [ih b hall.2]

theorem takeWhile_cons_neg {p : Char → Bool} {c : Char} (h : p c = false) (l : List Char) :
    (c :: l).takeWhile p = [] := by
  rw [List.takeWhile_cons, h]
  rfl

/-- The 13 newline-free body lines of the raw f-string before the `User:` line
(12/14/16-space indentation as in the source). -/
def promptLinesRaw : List (List Char) :=
  [("            You are a real estate assistant. Your job is to convert the user's request into a valid JSON object using the exact format below.").data,
   "            Output ONLY the JSON object and no other text.".data,
   "            Your entire output must consist of the following:".data,
   "            <<<JSON_START>>>".data,
   "            \x7b ".data,
   "              \"layer\": \"<string>\",".data,
   "              \"filters\": \x7b".data,
   "                \"fire_risk\": \"<string>\",".data,
   "                \"price\": \x7b \"lt\": <number> \x7d".data,
   "              \x7d".data,
   "            \x7d".data,
   "            <<<JSON_END>>>".data,
   "            Do not include any extra text, explanations, or characters.".data]

/-- The raw `User:` line up to the interpolated query. -/
def userStub : List Char := "            User: ".data

/-- The 8 spaces of the raw text's final line. -/
def spaces8 : List Char := "        ".data

/-- The 12-space margin removed by `textwrap.dedent` for single-line queries. -/
def margin12 : List Char := "            ".data

/-- The dedented body lines. -/
def promptLinesDedent : List (List Char) :=
  [("You are a real estate assistant. Your job is to convert the user's request into a valid JSON object using the exact format below.").data,
   "Output ONLY the JSON object and no other text.".data,
   "Your entire output must consist of the following:".data,
   "<<<JSON_START>>>".data,
   "\x7b ".data,
   "  \"layer\": \"<string>\",".data,
   "  \"filters\": \x7b".data,
   "    \"fire_risk\": \"<string>\",".data,
   "    \"price\": \x7b \"lt\": <number> \x7d".data,
   "  \x7d".data,
   "\x7d".data,
   "<<<JSON_END>>>".data,
   "Do not include any extra text, explanations, or characters.".data]

/-- The prompt text produced for newline-free queries, up to and including
`User: `. -/
def promptHeader : List Char :=
  ("You are a real estate assistant. Your job is to convert the user's request into a valid JSON object using the exact format below.\nOutput ONLY the JSON object and no other text.\nYour entire output must consist of the following:\n<<<JSON_START>>>\n\x7b \n  \"layer\": \"<string>\",\n  \"filters\": \x7b\n    \"fire_risk\": \"<string>\",\n    \"price\": \x7b \"lt\": <number> \x7d\n  \x7d\n\x7d\n<<<JSON_END>>>\nDo not include any extra text, explanations, or characters.\nUser: ").data

set_option maxRecDepth 8192 in
/-- Claim C7 (amended): `_build_prompt` is a pure function (in this embedding a
mathematical function, so two calls on the same query are definitionally
equal), and for every query containing no newline the prompt is exactly the
fixed dedented instruction block, then the literal query, then one newline.
For queries containing a newline the dedent margin collapses and the
instruction block is emitted with its raw indentation, so the fixed-block form
fails (see the counterexample). -/
theorem build_prompt_fixed_for_single_line (q : List Char) (h : '\n' ∉ q) :
    build_prompt q = promptHeader ++ q ++ ['\n'] := by
  have hraw : promptPrefixRaw = joinLines promptLinesRaw userStub := by decide
  have hsuffix : promptSuffixRaw = '\n' :: spaces8 := by decide
  have hnl : ∀ l ∈ promptLinesRaw, '\n' ∉ l := by decide
  have huser : '\n' ∉ userStub := by decide
  have huq : '\n' ∉ userStub ++ q := by
    intro hm
    rcases List.mem_append.mp hm with hm | hm
    · exact huser hm
    · exact h hm
  have hsplit : splitLines (promptPrefixRaw ++ q ++ promptSuffixRaw) =
      promptLinesRaw ++ [userStub ++ q, spaces8] := by
    rw [hraw, hsuffix, List.append_assoc, joinLines_append,
      splitLines_joinLines promptLinesRaw _ hnl, ← List.append_assoc,
      splitLines_line_cons (userStub ++ q) huq spaces8]
    rfl
  unfold build_prompt dedent
  rw [hsplit]
  rfl

set_option maxRecDepth 8192 in
/-- Counterexample to the universally quantified form of claim C7: there are no
fixed strings `H` and `F` with `build_prompt q = H ++ q ++ F` for *every*
query.  A query containing a newline defeats `textwrap.dedent` (the new line
has no indentation, so the common margin becomes empty and the whole block
stays indented): the lengths of `build_prompt "a"` and `build_prompt "a\nb"`
differ by 170, not 2. -/
theorem build_prompt_not_fixed_block :
    ¬ ∃ H F : List Char, ∀ q : List Char, build_prompt q = H ++ q ++ F := by
  rintro ⟨H, F, hall⟩
  have h1 := congrArg List.length (hall ['a'])
  have h3 := congrArg List.length (hall ('a' :: '\n' :: ['b']))
  simp only [List.length_append, List.length_cons, List.length_nil] at h1 h3
  have c1 : (build_prompt ['a']).length = 435 := by decide
  have c3 : (build_prompt ('a' :: '\n' :: ['b'])).length = 605 := by decide
  omega

/-- Witness for C7 (amended): the concrete query `hello`. -/
theorem build_prompt_fixed_for_single_line_witness :
    build_prompt "hello".data = promptHeader ++ "hello".data ++ ['\n'] :=
  build_prompt_fixed_for_single_line "hello".data (by decide)

end LlamaQueryParser
